import Mathlib

/-!
Verification of the 432 Hz audio conversion tool (convert_to_432hz.py).

The development shallow-embeds the algorithmic core of the script:

- the spectral estimator (analyze_tuning): FFT-bin processing restricted to
  the [400, 500] Hz capture band, weighted-centroid dominant frequency and
  top-5 harmonics selection.  The FFT itself (scipy.fft.rfft) is an external
  collaborator: the embedding takes the magnitude spectrum (the values
  np.abs(rfft(samples))) as input, and models rfftfreq explicitly.
- the tuning corrector (convert_to_432hz): the iterative resampling loop,
  with file decoding/encoding, resampling (pydub) and re-analysis abstracted
  as oracle parameters.  All file-system effects are recorded in an explicit
  write trace, and the per-iteration prints of the script are recorded in an
  iteration trace.
- the batch orchestrator path derivation (os.path.join / os.path.splitext /
  str.replace), modelled over character lists with Python semantics.

Rational numbers stand in for the floating point values of the script; the
claims under study are about exact arithmetic structure (weighted averages,
comparisons against 432 and the tolerance), which ℚ represents faithfully.
-/

set_option allowUnsafeReducibility true in
attribute [semireducible] Rat.mul Rat.inv Rat.add Rat.sub

namespace Spec432

/-! ## Path strings (Python str operations used by the script) -/

/-- Paths are modelled as lists of characters. -/
abbrev PathStr := List Char

/-- Fuel-indexed helper for pyReplace; the fuel starts at the length of the
string, and each step consumes at least one character, so the fuel never
runs out on the initial call. -/
def pyReplaceAux (old new : PathStr) : ℕ → PathStr → PathStr
  | _, [] => []
  | 0, s => s
  | fuel + 1, c :: rest =>
    if old.isPrefixOf (c :: rest) then
      new ++ pyReplaceAux old new fuel ((c :: rest).drop old.length)
    else
      c :: pyReplaceAux old new fuel rest

/-- Python str.replace(old, new): replaces every non-overlapping occurrence
of old, scanning left to right.  (The script only calls it with old = ".wav",
which is nonempty.) -/
def pyReplace (old new s : PathStr) : PathStr :=
  pyReplaceAux old new s.length s

/-- The reversed basename of a path: the characters after the last slash,
in reverse order. -/
def revBasename (p : PathStr) : PathStr :=
  p.reverse.takeWhile (fun c => decide (c ≠ '/'))

/-- The root part of Python os.path.splitext (posixpath semantics): strip the
extension beginning at the last dot of the basename, unless all characters of
the basename before that dot are themselves dots (hidden files like .bashrc
are not split). -/
def splitextRoot (p : PathStr) : PathStr :=
  let bRev := revBasename p
  match bRev.findIdx? (fun c => decide (c = '.')) with
  | none => p
  | some i =>
    if (bRev.drop (i + 1)).any (fun c => decide (c ≠ '.')) then
      (p.reverse.drop (i + 1)).reverse
    else p

/-- Python os.path.join for two components (posixpath semantics). -/
def pathJoin (a b : PathStr) : PathStr :=
  if b.head? = some '/' then b
  else if a = [] then b
  else if a.getLast? = some '/' then a ++ b
  else a ++ '/' :: b

/-- The scratch path of one loop iteration, from line 81 of the script:
output_path.replace(".wav", "_temp_" + str(iteration) + ".wav"). -/
def tempOutputPath (output_path : PathStr) (iteration : ℕ) : PathStr :=
  pyReplace ".wav".data ("_temp_".data ++ Nat.toDigits 10 iteration ++ ".wav".data) output_path

/-- The output path derived by batch_convert (lines 128-129) from the output
folder and the path of the input file relative to the input folder:
os.path.splitext(os.path.join(output_folder, relative_path))[0] + "_432Hz.wav". -/
def batchOutputPath (output_folder relative_path : PathStr) : PathStr :=
  splitextRoot (pathJoin output_folder relative_path) ++ "_432Hz.wav".data

example : tempOutputPath "out.wav".data 0 = "out_temp_0.wav".data := by decide
example : batchOutputPath "out".data "sub/song.mp3".data = "out/sub/song_432Hz.wav".data := by
  decide

/-! ## Spectral estimator (analyze_tuning, lines 12-43) -/

/-- The report produced by analyze_tuning (the dictionary of line 34). -/
structure TuningReport where
  dominant_freq : ℚ
  sample_rate : ℚ
  duration : ℚ
  harmonics : List ℚ
deriving DecidableEq

/-- scipy.fft.rfftfreq n (1/sample_rate): the frequencies of the bins of the
real-input FFT of a buffer of n samples, k * sample_rate / n for
k = 0 .. n/2. -/
def rfftfreq (n : ℕ) (sample_rate : ℚ) : List ℚ :=
  (List.range (n / 2 + 1)).map (fun k => (k : ℚ) * sample_rate / (n : ℚ))

/-- The bins retained by the capture-band mask of line 27:
(fft_freqs >= 400) & (fft_freqs <= 500), applied to the (frequency,
magnitude) pairs. -/
def bandBins (fft_freqs fft_mags : List ℚ) : List (ℚ × ℚ) :=
  (fft_freqs.zip fft_mags).filter (fun b => decide (400 ≤ b.1) && decide (b.1 ≤ 500))

/-- The comparison np.argsort(-vals) sorts indices by: index i comes no
later than index j when vals[j] <= vals[i], i.e. descending value. -/
def keyDescNat (vals : List ℚ) (i j : ℕ) : Prop :=
  vals.getD j 0 ≤ vals.getD i 0

instance keyDescNat.instDecidableRel (vals : List ℚ) : DecidableRel (keyDescNat vals) :=
  fun i j => inferInstanceAs (Decidable (vals.getD j 0 ≤ vals.getD i 0))

/-- np.argsort(-vals), line 38: numpy guarantees only a permutation of the
indices of vals in descending-value order (argsortContract below); with the
default sort kind, quicksort, the relative order of tied indices is
unspecified.  The embedding needs one deterministic refinement to stay
executable and uses the tie-by-original-index one; none of the proved claim
theorems depends on which refinement is chosen — the tie order itself is the
subject of the C6 code-bug finding (c6_tie_order_not_determined). -/
def argsortNeg (vals : List ℚ) : List ℕ :=
  List.insertionSort (keyDescNat vals) (List.range vals.length)

/-- analyze_tuning, lines 22-43, as a function of the buffer length, the
sample rate and the magnitude spectrum np.abs(rfft(samples)).

If no bin frequency falls in [400, 500] the function returns None (line 40).
If bins fall in the band but their magnitudes sum to zero, np.average raises
ZeroDivisionError, which the except-handler of line 41 turns into None as
well.  Otherwise the report of line 34 is built: the dominant frequency is
the magnitude-weighted average of the retained bin frequencies, and the
harmonics are the frequencies of the (up to) five largest-magnitude retained
bins. -/
def analyze_tuning (n : ℕ) (sample_rate : ℚ) (fft_mags : List ℚ) : Option TuningReport :=
  let fft_freqs := rfftfreq n sample_rate
  let valid := bandBins fft_freqs fft_mags
  let filtered_fft_vals := valid.map Prod.snd
  let filtered_fft_freqs := valid.map Prod.fst
  if 0 < valid.length then
    if filtered_fft_vals.sum = 0 then none
    else some
      { dominant_freq := (valid.map (fun b => b.1 * b.2)).sum / filtered_fft_vals.sum
        sample_rate := sample_rate
        duration := (n : ℚ) / sample_rate
        harmonics := ((argsortNeg filtered_fft_vals).take 5).map
          (fun i => filtered_fft_freqs.getD i 0) }
  else none

/-- The dominant-frequency formula as the specification states it:
sum(freq_i * mag_i) / sum(mag_i) over the given bins. -/
def specDominantFreq (bins : List (ℚ × ℚ)) : ℚ :=
  (bins.map (fun b => b.1 * b.2)).sum / (bins.map Prod.snd).sum

example :
    analyze_tuning 8 3600 [1, 2, 1, 1, 1] =
      some { dominant_freq := 450, sample_rate := 3600, duration := 1 / 450,
             harmonics := [450] } := by
  decide

example : analyze_tuning 8 3600 [1, 0, 1, 1, 1] = none := by decide

/-! ## Tuning corrector (convert_to_432hz, lines 46-107) -/

/-- The terminal states of one conversion attempt, matching the return
statements of convert_to_432hz: line 55 (initial analysis failed), line 65
(already below 432), line 97 (verified within tolerance), line 88 plus the
fall-through (re-analysis failed mid-loop), and line 104 (iterations
exhausted). -/
inductive Outcome where
  | analysisFailed : Outcome
  | notApplied : Outcome
  | success (iteration : ℕ) : Outcome
  | reanalysisFailed (iteration : ℕ) : Outcome
  | toleranceNotMet : Outcome
deriving DecidableEq

/-- The boolean the script actually returns to its caller in each terminal
state: True at line 97, False at lines 55, 65, 104. -/
def Outcome.toBool : Outcome → Bool
  | .success _ => true
  | _ => false

/-- A file-system effect of the corrector: writing a buffer to a path
(audio.export) or renaming a file (os.rename). -/
inductive FileOp (A : Type) where
  | write (path : PathStr) (content : A) : FileOp A
  | move (src dst : PathStr) : FileOp A
deriving DecidableEq

/-- The record of one loop iteration, mirroring the prints of lines 73 and
91: the dominant frequency the speed ratio was computed from, the applied
speed ratio 432/frequency, the resampled candidate buffer, and the result of
re-analysing the candidate (none when re-analysis failed). -/
structure IterLog (A : Type) where
  usedFreq : ℚ
  speed : ℚ
  candidate : A
  measured : Option ℚ
deriving DecidableEq

/-- The complete observable result of one conversion attempt: the terminal
state, the trace of file writes/renames in order, and the iteration trace. -/
structure ConvResult (A : Type) where
  outcome : Outcome
  writes : List (FileOp A)
  iters : List (IterLog A)
deriving DecidableEq

/-- The while-loop of lines 71-99 followed by the fall-through of lines
101-104.  The buffer type A, the resampling primitive (lines 76-78) and the
re-analysis of the exported scratch file (line 85) are abstract parameters;
fuel is the number of remaining iterations, max_iterations - iteration.

Each iteration computes speed_ratio = 432.0 / dominant_freq (line 72),
resamples, writes the candidate to the scratch path (line 82), re-analyses
it, and either breaks out (lines 86-88, falling through to the final write
of line 103), succeeds by renaming the scratch file onto the output path
(lines 94-97), or continues with the newly measured frequency (lines 90,
99).  When the fuel runs out the current buffer is written to the output
path (line 103) and the loop reports failure (line 104). -/
def convertLoop {A : Type} (resample : ℚ → A → A) (measure : A → Option ℚ)
    (output_path : PathStr) (tolerance : ℚ) :
    ℕ → ℕ → ℚ → A → ConvResult A
  | _, 0, _, buf => ⟨Outcome.toleranceNotMet, [FileOp.write output_path buf], []⟩
  | iteration, fuel + 1, dominant_freq, buf =>
    let speed_ratio := 432 / dominant_freq
    let cand := resample speed_ratio buf
    let temp_output_path := tempOutputPath output_path iteration
    match measure cand with
    | none =>
      ⟨Outcome.reanalysisFailed iteration,
        [FileOp.write temp_output_path cand, FileOp.write output_path cand],
        [⟨dominant_freq, speed_ratio, cand, none⟩]⟩
    | some f2 =>
      if |f2 - 432| ≤ tolerance then
        ⟨Outcome.success iteration,
          [FileOp.write temp_output_path cand, FileOp.move temp_output_path output_path],
          [⟨dominant_freq, speed_ratio, cand, some f2⟩]⟩
      else
        let r := convertLoop resample measure output_path tolerance (iteration + 1) fuel f2 cand
        ⟨r.outcome, FileOp.write temp_output_path cand :: r.writes,
          ⟨dominant_freq, speed_ratio, cand, some f2⟩ :: r.iters⟩

/-- convert_to_432hz, lines 46-107, with the initial analysis of the source
file (line 52) abstracted to the optional dominant frequency it yields, and
the undecoded source buffer of line 68 passed as buf0.  Line 53 returns
early when the analysis yields nothing; line 63 skips files whose dominant
frequency is strictly below 432; otherwise the iteration loop runs with
iteration = 0 and max_iterations remaining. -/
def convert_run {A : Type} (resample : ℚ → A → A) (measure : A → Option ℚ)
    (initialFreq : Option ℚ) (output_path : PathStr)
    (max_iterations : ℕ) (tolerance : ℚ) (buf0 : A) : ConvResult A :=
  match initialFreq with
  | none => ⟨Outcome.analysisFailed, [], []⟩
  | some dominant_freq =>
    if dominant_freq < 432 then ⟨Outcome.notApplied, [], []⟩
    else convertLoop resample measure output_path tolerance 0 max_iterations dominant_freq buf0

/-- The boolean value convert_to_432hz returns to its caller. -/
def convert_to_432hz {A : Type} (resample : ℚ → A → A) (measure : A → Option ℚ)
    (initialFreq : Option ℚ) (output_path : PathStr)
    (max_iterations : ℕ) (tolerance : ℚ) (buf0 : A) : Bool :=
  (convert_run resample measure initialFreq output_path max_iterations tolerance buf0).outcome.toBool

/-- The chaining property of the iteration trace: the first iteration uses
the given frequency, every iteration applies speed ratio 432 / usedFreq, and
every later iteration uses the frequency measured by the previous one. -/
def IterChain {A : Type} : ℚ → List (IterLog A) → Prop
  | _, [] => True
  | f, e :: rest =>
    e.usedFreq = f ∧ e.speed = 432 / f ∧
      (match e.measured with
       | none => rest = []
       | some f2 => IterChain f2 rest)

example :
    convert_run (fun _ b => b + 1) (fun _ => some 432) (some 440) "out.wav".data 3 (1 / 2) 0 =
      ⟨Outcome.success 0,
        [FileOp.write "out_temp_0.wav".data 1, FileOp.move "out_temp_0.wav".data "out.wav".data],
        [⟨440, 432 / 440, 1, some 432⟩]⟩ := by
  decide

example :
    convert_run (fun _ b => b + 1) (fun _ => some 440) (some 440) "out.wav".data 2 (1 / 2) 0 =
      ⟨Outcome.toleranceNotMet,
        [FileOp.write "out_temp_0.wav".data 1, FileOp.write "out_temp_1.wav".data 2,
         FileOp.write "out.wav".data 2],
        [⟨440, 432 / 440, 1, some 440⟩, ⟨440, 432 / 440, 2, some 440⟩]⟩ := by
  decide

/-! ## Loop invariants of the corrector -/

theorem convertLoop_iters_length_le {A : Type} (resample : ℚ → A → A) (measure : A → Option ℚ)
    (output_path : PathStr) (tolerance : ℚ) (fuel : ℕ) :
    ∀ (iteration : ℕ) (f : ℚ) (buf : A),
      (convertLoop resample measure output_path tolerance iteration fuel f buf).iters.length ≤
        fuel := by
  induction fuel with
  | zero => intro it f buf; simp [convertLoop]
  | succ fuel ih =>
    intro it f buf
    cases hm : measure (resample (432 / f) buf) with
    | none => simp [convertLoop, hm]
    | some f2 =>
      by_cases ht : |f2 - 432| ≤ tolerance
      · simp [convertLoop, hm, ht]
      · have := ih (it + 1) f2 (resample (432 / f) buf)
        simp only [convertLoop, hm, ht, if_false]
        simpa using Nat.succ_le_succ this

theorem convertLoop_iterChain {A : Type} (resample : ℚ → A → A) (measure : A → Option ℚ)
    (output_path : PathStr) (tolerance : ℚ) (fuel : ℕ) :
    ∀ (iteration : ℕ) (f : ℚ) (buf : A),
      IterChain f (convertLoop resample measure output_path tolerance iteration fuel f buf).iters := by
  induction fuel with
  | zero => intro it f buf; simp [convertLoop, IterChain]
  | succ fuel ih =>
    intro it f buf
    cases hm : measure (resample (432 / f) buf) with
    | none => simp [convertLoop, hm, IterChain]
    | some f2 =>
      by_cases ht : |f2 - 432| ≤ tolerance
      · simp [convertLoop, hm, ht, IterChain]
      · have := ih (it + 1) f2 (resample (432 / f) buf)
        simp only [convertLoop, hm, ht, if_false]
        exact ⟨rfl, rfl, this⟩

theorem convertLoop_reanalysisFailed_length {A : Type} (resample : ℚ → A → A)
    (measure : A → Option ℚ) (output_path : PathStr) (tolerance : ℚ) (fuel : ℕ) :
    ∀ (iteration : ℕ) (f : ℚ) (buf : A) (k : ℕ),
      (convertLoop resample measure output_path tolerance iteration fuel f buf).outcome =
          Outcome.reanalysisFailed k →
        (convertLoop resample measure output_path tolerance iteration fuel f buf).iters.length +
            iteration = k + 1 := by
  induction fuel with
  | zero => intro it f buf k h; simp [convertLoop] at h
  | succ fuel ih =>
    intro it f buf k h
    cases hm : measure (resample (432 / f) buf) with
    | none =>
      simp [convertLoop, hm] at h ⊢
      omega
    | some f2 =>
      by_cases ht : |f2 - 432| ≤ tolerance
      · simp [convertLoop, hm, ht] at h
      · simp only [convertLoop, hm, ht, if_false] at h ⊢
        have := ih (it + 1) f2 (resample (432 / f) buf) k h
        simp only [List.length_cons]
        omega

theorem convertLoop_failure_last_write {A : Type} (resample : ℚ → A → A)
    (measure : A → Option ℚ) (output_path : PathStr) (tolerance : ℚ) (fuel : ℕ) :
    ∀ (iteration : ℕ) (f : ℚ) (buf : A),
      ((∃ k, (convertLoop resample measure output_path tolerance iteration fuel f buf).outcome =
          Outcome.reanalysisFailed k) ∨
        (convertLoop resample measure output_path tolerance iteration fuel f buf).outcome =
          Outcome.toleranceNotMet) →
      (convertLoop resample measure output_path tolerance iteration fuel f buf).writes.getLast? =
        some (FileOp.write output_path
          (((convertLoop resample measure output_path tolerance iteration fuel f
              buf).iters.map IterLog.candidate).getLastD buf)) := by
  induction fuel with
  | zero => intro it f buf _; simp [convertLoop]
  | succ fuel ih =>
    intro it f buf h
    cases hm : measure (resample (432 / f) buf) with
    | none => simp [convertLoop, hm]
    | some f2 =>
      by_cases ht : |f2 - 432| ≤ tolerance
      · exfalso
        rcases h with ⟨k, hk⟩ | hk <;> simp [convertLoop, hm, ht] at hk
      · have hrec := ih (it + 1) f2 (resample (432 / f) buf)
        simp only [convertLoop, hm, ht, if_false] at h ⊢
        have hlast := hrec (by simpa using h)
        rcases hw : (convertLoop resample measure output_path tolerance (it + 1) fuel f2
            (resample (432 / f) buf)).writes with _ | ⟨w, ws⟩
        · rw [hw] at hlast; simp at hlast
        · simp only [List.map_cons, List.getLastD_cons]
          rw [List.getLast?_cons_cons, ← hw]
          exact hlast

theorem outcome_toBool_true_iff (o : Outcome) : o.toBool = true ↔ ∃ k, o = Outcome.success k := by
  cases o <;> simp [Outcome.toBool]

/-! ## Claims about the corrector -/

/-- C2: for every input and every value of max_iterations, the correction
loop performs at most max_iterations resampling iterations (the function is
total, so it terminates and reports an outcome), and the iteration trace is
chained: the first iteration uses the initially analysed dominant frequency,
every iteration applies speed ratio 432 / usedFreq, and every later
iteration uses the frequency measured by the previous re-analysis. -/
theorem c2_loop_bounded_and_ratios {A : Type} (resample : ℚ → A → A) (measure : A → Option ℚ)
    (initialFreq : Option ℚ) (output_path : PathStr) (max_iterations : ℕ) (tolerance : ℚ)
    (buf0 : A) :
    (convert_run resample measure initialFreq output_path max_iterations tolerance
        buf0).iters.length ≤ max_iterations ∧
    ∀ f0, initialFreq = some f0 →
      IterChain f0 (convert_run resample measure initialFreq output_path max_iterations tolerance
        buf0).iters := by
  constructor
  · cases initialFreq with
    | none => simp [convert_run]
    | some f0 =>
      by_cases h : f0 < 432
      · simp [convert_run, h]
      · simpa [convert_run, h] using
          convertLoop_iters_length_le resample measure output_path tolerance max_iterations 0 f0
            buf0
  · intro f0 hf0
    subst hf0
    by_cases h : f0 < 432
    · simp [convert_run, h, IterChain]
    · simpa [convert_run, h] using
        convertLoop_iterChain resample measure output_path tolerance max_iterations 0 f0 buf0

theorem c2_loop_bounded_and_ratios_witness :
    ((convert_run (fun _ b => b + 1) (fun _ => some 440) (some 440) "out.wav".data 2 (1 / 2)
        (0 : ℕ)).iters.length ≤ 2) ∧
    IterChain 440 ((convert_run (fun _ b => b + 1) (fun _ => some 440) (some 440) "out.wav".data 2
        (1 / 2) (0 : ℕ)).iters) :=
  ⟨(c2_loop_bounded_and_ratios (fun _ b => b + 1) (fun _ => some 440) (some 440) "out.wav".data 2
      (1 / 2) 0).1,
    (c2_loop_bounded_and_ratios (fun _ b => b + 1) (fun _ => some 440) (some 440) "out.wav".data 2
      (1 / 2) 0).2 440 rfl⟩

/-- C3 as amended: when the initially measured dominant frequency is
strictly less than 432 Hz, convert_to_432hz returns the not-applied outcome
and performs no resampling iteration and no file write at all. -/
theorem c3_below_432_skips {A : Type} (resample : ℚ → A → A) (measure : A → Option ℚ)
    (output_path : PathStr) (max_iterations : ℕ) (tolerance : ℚ) (buf0 : A) (f0 : ℚ)
    (h : f0 < 432) :
    convert_run resample measure (some f0) output_path max_iterations tolerance buf0 =
      ⟨Outcome.notApplied, [], []⟩ := by
  simp [convert_run, h]

theorem c3_below_432_skips_witness :
    ((431 : ℚ) < 432) ∧
    convert_run (fun _ b => b + 1) (fun _ => some 431) (some 431) "out.wav".data 3 (1 / 2)
        (0 : ℕ) = ⟨Outcome.notApplied, [], []⟩ :=
  ⟨by norm_num,
    c3_below_432_skips (fun _ b => b + 1) (fun _ => some 431) "out.wav".data 3 (1 / 2) 0 431
      (by norm_num)⟩

/-- C3 fails as stated: a source whose initially measured dominant frequency
is exactly 432 Hz (so less than or equal to 432) is not skipped; the loop
runs, resamples once and writes the scratch file (and here converges and
renames it), so the outcome is not the not-applied one and writes occur. -/
theorem c3_counterexample_at_432 :
    (convert_run (fun _ b => b + 1) (fun _ => some 432) (some 432) "out.wav".data 3 (1 / 2)
        (0 : ℕ)).outcome ≠ Outcome.notApplied ∧
    (convert_run (fun _ b => b + 1) (fun _ => some 432) (some 432) "out.wav".data 3 (1 / 2)
        (0 : ℕ)).writes ≠ [] ∧
    (convert_run (fun _ b => b + 1) (fun _ => some 432) (some 432) "out.wav".data 3 (1 / 2)
        (0 : ℕ)).iters.length = 1 := by
  refine ⟨?_, ?_, ?_⟩ <;> decide

/-- C4 as amended: if a mid-loop re-analysis yields no report at iteration
k, the loop stops with exactly k + 1 iterations performed; and on every
failure path (early abort or exhaustion of max_iterations) the most recent
buffer — the last resampled candidate, or the original buffer when no
iteration ran — is the content of the final write, which targets the output
path, and the value returned to the caller is False. -/
theorem c4_failure_best_effort {A : Type} (resample : ℚ → A → A) (measure : A → Option ℚ)
    (initialFreq : Option ℚ) (output_path : PathStr) (max_iterations : ℕ) (tolerance : ℚ)
    (buf0 : A) :
    (∀ k, (convert_run resample measure initialFreq output_path max_iterations tolerance
        buf0).outcome = Outcome.reanalysisFailed k →
      (convert_run resample measure initialFreq output_path max_iterations tolerance
        buf0).iters.length = k + 1) ∧
    (((∃ k, (convert_run resample measure initialFreq output_path max_iterations tolerance
          buf0).outcome = Outcome.reanalysisFailed k) ∨
        (convert_run resample measure initialFreq output_path max_iterations tolerance
          buf0).outcome = Outcome.toleranceNotMet) →
      (convert_run resample measure initialFreq output_path max_iterations tolerance
          buf0).writes.getLast? =
        some (FileOp.write output_path
          (((convert_run resample measure initialFreq output_path max_iterations tolerance
              buf0).iters.map IterLog.candidate).getLastD buf0)) ∧
      convert_to_432hz resample measure initialFreq output_path max_iterations tolerance buf0 =
        false) := by
  cases initialFreq with
  | none =>
    constructor
    · intro k h; simp [convert_run] at h
    · intro h; rcases h with ⟨k, hk⟩ | hk <;> simp [convert_run] at hk
  | some f0 =>
    by_cases h : f0 < 432
    · constructor
      · intro k hk; simp [convert_run, h] at hk
      · intro hk; rcases hk with ⟨k, hk⟩ | hk <;> simp [convert_run, h] at hk
    · constructor
      · intro k hk
        have := convertLoop_reanalysisFailed_length resample measure output_path tolerance
          max_iterations 0 f0 buf0 k (by simpa [convert_run, h] using hk)
        simpa [convert_run, h] using this
      · intro hk
        refine ⟨?_, ?_⟩
        · have := convertLoop_failure_last_write resample measure output_path tolerance
            max_iterations 0 f0 buf0 (by simpa [convert_run, h] using hk)
          simpa [convert_run, h] using this
        · rcases hk with ⟨k, hk2⟩ | hk2 <;>
            simp [convert_to_432hz, Outcome.toBool, hk2]

theorem c4_failure_best_effort_witness :
    ((convert_run (fun _ b => b + 1) (fun _ => none) (some 440) "out.wav".data 3 (1 / 2)
        (0 : ℕ)).iters.length = 0 + 1) ∧
    (convert_run (fun _ b => b + 1) (fun _ => none) (some 440) "out.wav".data 3 (1 / 2)
        (0 : ℕ)).writes.getLast? =
      some (FileOp.write "out.wav".data
        (((convert_run (fun _ b => b + 1) (fun _ => none) (some 440) "out.wav".data 3 (1 / 2)
            (0 : ℕ)).iters.map IterLog.candidate).getLastD 0)) ∧
    convert_to_432hz (fun _ b => b + 1) (fun _ => none) (some 440) "out.wav".data 3 (1 / 2)
        (0 : ℕ) = false :=
  ⟨(c4_failure_best_effort (fun _ b => b + 1) (fun _ => none) (some 440) "out.wav".data 3 (1 / 2)
      0).1 0 (by decide),
    (c4_failure_best_effort (fun _ b => b + 1) (fun _ => none) (some 440) "out.wav".data 3 (1 / 2)
      0).2 (Or.inl ⟨0, by decide⟩)⟩

/-- C4 fails as stated in one corner: with max_iterations = 0 the loop
exhausts immediately, the failure path runs with no resampling iteration at
all, and the buffer written to the output path is the original buffer, not a
resampled one (here the original buffer 0, while every output of the
resampling oracle used is positive). -/
theorem c4_counterexample_zero_iterations :
    (convert_run (fun _ b => b + 1) (fun _ => some 440) (some 440) "out.wav".data 0 (1 / 2)
        (0 : ℕ)).outcome = Outcome.toleranceNotMet ∧
    (convert_run (fun _ b => b + 1) (fun _ => some 440) (some 440) "out.wav".data 0 (1 / 2)
        (0 : ℕ)).iters = [] ∧
    (convert_run (fun _ b => b + 1) (fun _ => some 440) (some 440) "out.wav".data 0 (1 / 2)
        (0 : ℕ)).writes = [FileOp.write "out.wav".data 0] := by
  refine ⟨?_, ?_, ?_⟩ <;> decide

/-- C5: in any iteration whose re-measured dominant frequency lies within
tolerance of 432, the loop writes that iteration's scratch file, promotes it
to the final output path by a rename, reports success at that iteration, and
performs no further iterations (the iteration trace from this point has
exactly one entry). -/
theorem c5_convergence_promotes_scratch {A : Type} (resample : ℚ → A → A)
    (measure : A → Option ℚ) (output_path : PathStr) (tolerance : ℚ) (iteration fuel : ℕ)
    (f f2 : ℚ) (buf : A)
    (hm : measure (resample (432 / f) buf) = some f2) (ht : |f2 - 432| ≤ tolerance) :
    convertLoop resample measure output_path tolerance iteration (fuel + 1) f buf =
      ⟨Outcome.success iteration,
        [FileOp.write (tempOutputPath output_path iteration) (resample (432 / f) buf),
          FileOp.move (tempOutputPath output_path iteration) output_path],
        [⟨f, 432 / f, resample (432 / f) buf, some f2⟩]⟩ := by
  simp [convertLoop, hm, ht]

theorem c5_convergence_promotes_scratch_witness :
    ((fun _ : ℚ => some (432 : ℚ)) ((fun (_ : ℚ) (b : ℕ) => b + 1) (432 / 440) 0) =
        some (432 : ℚ)) ∧
    convertLoop (fun _ b => b + 1) (fun _ => some 432) "out.wav".data (1 / 2) 0 (2 + 1) 440
        (0 : ℕ) =
      ⟨Outcome.success 0,
        [FileOp.write (tempOutputPath "out.wav".data 0) ((fun (_ : ℚ) (b : ℕ) => b + 1)
            (432 / 440) 0),
          FileOp.move (tempOutputPath "out.wav".data 0) "out.wav".data],
        [⟨440, 432 / 440, (fun (_ : ℚ) (b : ℕ) => b + 1) (432 / 440) 0, some 432⟩]⟩ :=
  ⟨rfl,
    c5_convergence_promotes_scratch (fun _ b => b + 1) (fun _ => some 432) "out.wav".data (1 / 2)
      0 2 440 432 0 rfl (by norm_num)⟩

/-- C8 as amended: the boolean convert_to_432hz returns distinguishes
success from every other terminal state (it is True exactly on success), but
it does not distinguish the remaining states from one another; in particular
the skipped state and the iterations-exhausted state both return False (see
the counterexample). -/
theorem c8_return_value_success_only {A : Type} (resample : ℚ → A → A) (measure : A → Option ℚ)
    (initialFreq : Option ℚ) (output_path : PathStr) (max_iterations : ℕ) (tolerance : ℚ)
    (buf0 : A) :
    convert_to_432hz resample measure initialFreq output_path max_iterations tolerance buf0 =
        true ↔
      ∃ k, (convert_run resample measure initialFreq output_path max_iterations tolerance
        buf0).outcome = Outcome.success k := by
  unfold convert_to_432hz
  exact outcome_toBool_true_iff _

theorem c8_return_value_success_only_witness :
    convert_to_432hz (fun _ b => b + 1) (fun _ => some 432) (some 440) "out.wav".data 3 (1 / 2)
        (0 : ℕ) = true :=
  (c8_return_value_success_only (fun _ b => b + 1) (fun _ => some 432) (some 440) "out.wav".data
      3 (1 / 2) 0).mpr ⟨0, by decide⟩

/-- C8 fails as stated: the skipped state (dominant frequency already below
432) and the failed state (max_iterations exhausted without meeting the
tolerance) are different terminal states, yet convert_to_432hz returns the
same value False for both, so the caller cannot distinguish them by the
returned value. -/
theorem c8_counterexample_false_collision :
    convert_to_432hz (fun _ b => b + 1) (fun _ => some 431) (some 431) "out.wav".data 3 (1 / 2)
        (0 : ℕ) =
      convert_to_432hz (fun _ b => b + 1) (fun _ => some 440) (some 440) "out.wav".data 3 (1 / 2)
        (0 : ℕ) ∧
    (convert_run (fun _ b => b + 1) (fun _ => some 431) (some 431) "out.wav".data 3 (1 / 2)
        (0 : ℕ)).outcome = Outcome.notApplied ∧
    (convert_run (fun _ b => b + 1) (fun _ => some 440) (some 440) "out.wav".data 3 (1 / 2)
        (0 : ℕ)).outcome = Outcome.toleranceNotMet := by
  refine ⟨?_, ?_, ?_⟩ <;> decide

/-! ## Facts about the capture band and the weighted centroid -/

theorem bandBins_mem_bounds {fft_freqs fft_mags : List ℚ} {b : ℚ × ℚ}
    (hb : b ∈ bandBins fft_freqs fft_mags) : 400 ≤ b.1 ∧ b.1 ≤ 500 := by
  simp only [bandBins, List.mem_filter, Bool.and_eq_true, decide_eq_true_eq] at hb
  exact hb.2

theorem bandBins_mem_snd_mem {fft_freqs fft_mags : List ℚ} {b : ℚ × ℚ}
    (hb : b ∈ bandBins fft_freqs fft_mags) : b.2 ∈ fft_mags := by
  obtain ⟨x, y⟩ := b
  simp only [bandBins, List.mem_filter] at hb
  exact (List.of_mem_zip hb.1).2

theorem weighted_centroid_bounds (l : List (ℚ × ℚ))
    (hl : ∀ b ∈ l, (400 ≤ b.1 ∧ b.1 ≤ 500) ∧ 0 ≤ b.2)
    (hsum : (l.map Prod.snd).sum ≠ 0) :
    400 ≤ specDominantFreq l ∧ specDominantFreq l ≤ 500 := by
  have h0 : 0 ≤ (l.map Prod.snd).sum := by
    refine List.sum_nonneg ?_
    intro x hx
    obtain ⟨b, hb, rfl⟩ := List.mem_map.mp hx
    exact (hl b hb).2
  have hpos : 0 < (l.map Prod.snd).sum := lt_of_le_of_ne h0 (Ne.symm hsum)
  have hupper : (l.map fun b => b.1 * b.2).sum ≤ (l.map fun b => 500 * b.2).sum := by
    refine List.sum_le_sum ?_
    intro b hb
    exact mul_le_mul_of_nonneg_right (hl b hb).1.2 (hl b hb).2
  have hlower : (l.map fun b => 400 * b.2).sum ≤ (l.map fun b => b.1 * b.2).sum := by
    refine List.sum_le_sum ?_
    intro b hb
    exact mul_le_mul_of_nonneg_right (hl b hb).1.1 (hl b hb).2
  rw [List.sum_map_mul_left] at hupper hlower
  constructor
  · rw [specDominantFreq, le_div_iff₀ hpos]
    linarith
  · rw [specDominantFreq, div_le_iff₀ hpos]
    linarith

theorem argsortNeg_mem_lt {vals : List ℚ} {i : ℕ} (hi : i ∈ argsortNeg vals) :
    i < vals.length :=
  List.mem_range.mp ((List.perm_insertionSort (keyDescNat vals) _).mem_iff.mp hi)

/-! ## Claims about the spectral estimator -/

/-- C1: whenever analyze_tuning returns a report, its dominant frequency is
the magnitude-weighted average sum(freq_i * mag_i) / sum(mag_i) over exactly
the FFT bins whose frequency lies in the inclusive band [400, 500]. -/
theorem c1_dominant_is_weighted_centroid (n : ℕ) (sample_rate : ℚ) (fft_mags : List ℚ)
    (r : TuningReport) (h : analyze_tuning n sample_rate fft_mags = some r) :
    r.dominant_freq = specDominantFreq (bandBins (rfftfreq n sample_rate) fft_mags) := by
  simp only [analyze_tuning] at h
  split at h
  · split at h
    · simp at h
    · rw [Option.some_inj] at h
      subst h
      rfl
  · simp at h

theorem c1_dominant_is_weighted_centroid_witness :
    (analyze_tuning 8 3600 [1, 2, 1, 1, 1] =
      some { dominant_freq := 450, sample_rate := 3600, duration := 1 / 450,
             harmonics := [450] }) ∧
    (450 : ℚ) = specDominantFreq (bandBins (rfftfreq 8 3600) [1, 2, 1, 1, 1]) :=
  ⟨by decide,
    c1_dominant_is_weighted_centroid 8 3600 [1, 2, 1, 1, 1]
      { dominant_freq := 450, sample_rate := 3600, duration := 1 / 450, harmonics := [450] }
      (by decide)⟩

/-- C7: for a buffer with no spectral energy in the capture band — every bin
whose frequency lies in [400, 500] has magnitude zero, in particular when no
bin frequency falls in the band at all — analyze_tuning returns None rather
than any report. -/
theorem c7_no_band_energy_returns_none (n : ℕ) (sample_rate : ℚ) (fft_mags : List ℚ)
    (h : ∀ b ∈ bandBins (rfftfreq n sample_rate) fft_mags, b.2 = 0) :
    analyze_tuning n sample_rate fft_mags = none := by
  simp only [analyze_tuning]
  split
  · have hsum : ((bandBins (rfftfreq n sample_rate) fft_mags).map Prod.snd).sum = 0 := by
      refine List.sum_eq_zero ?_
      intro x hx
      obtain ⟨b, hb, rfl⟩ := List.mem_map.mp hx
      exact h b hb
    simp [hsum]
  · rfl

theorem c7_no_band_energy_returns_none_witness :
    (∀ b ∈ bandBins (rfftfreq 8 3600) [1, 0, 3, 4, 5], b.2 = 0) ∧
    analyze_tuning 8 3600 [1, 0, 3, 4, 5] = none :=
  ⟨by decide, c7_no_band_energy_returns_none 8 3600 [1, 0, 3, 4, 5] (by decide)⟩

/-- C10: whenever analyze_tuning returns a report (for a magnitude spectrum,
whose entries are nonnegative), the dominant frequency lies in [400, 500],
the harmonics list has at most 5 entries, each harmonic lies in [400, 500],
and the duration is the buffer length divided by the sample rate. -/
theorem c10_report_invariants (n : ℕ) (sample_rate : ℚ) (fft_mags : List ℚ) (r : TuningReport)
    (hm : ∀ m ∈ fft_mags, 0 ≤ m) (h : analyze_tuning n sample_rate fft_mags = some r) :
    (400 ≤ r.dominant_freq ∧ r.dominant_freq ≤ 500) ∧
      r.harmonics.length ≤ 5 ∧
      (∀ x ∈ r.harmonics, 400 ≤ x ∧ x ≤ 500) ∧
      r.duration = (n : ℚ) / sample_rate := by
  have hbound : ∀ b ∈ bandBins (rfftfreq n sample_rate) fft_mags,
      (400 ≤ b.1 ∧ b.1 ≤ 500) ∧ 0 ≤ b.2 := by
    intro b hb
    exact ⟨bandBins_mem_bounds hb, hm b.2 (bandBins_mem_snd_mem hb)⟩
  simp only [analyze_tuning] at h
  split at h
  · split at h
    · simp at h
    · rw [Option.some_inj] at h
      subst h
      refine ⟨?_, ?_, ?_, rfl⟩
      · exact weighted_centroid_bounds _ hbound (by assumption)
      · simp only [List.length_map, List.length_take]
        exact le_trans (Nat.min_le_left _ _) (le_refl 5)
      · intro x hx
        simp only [List.mem_map] at hx
        obtain ⟨i, hi, rfl⟩ := hx
        have hi2 : i ∈ argsortNeg ((bandBins (rfftfreq n sample_rate) fft_mags).map Prod.snd) :=
          List.mem_of_mem_take hi
        have hlt : i < ((bandBins (rfftfreq n sample_rate) fft_mags).map Prod.snd).length :=
          argsortNeg_mem_lt hi2
        rw [List.length_map] at hlt
        have hlt2 : i < ((bandBins (rfftfreq n sample_rate) fft_mags).map Prod.fst).length := by
          rw [List.length_map]
          exact hlt
        rw [List.getD_eq_getElem _ _ hlt2]
        have hmem : ((bandBins (rfftfreq n sample_rate) fft_mags).map Prod.fst)[i] ∈
            (bandBins (rfftfreq n sample_rate) fft_mags).map Prod.fst :=
          List.getElem_mem hlt2
        obtain ⟨b, hb, heq⟩ := List.mem_map.mp hmem
        rw [← heq]
        exact bandBins_mem_bounds hb
  · simp at h

theorem c10_report_invariants_witness :
    (∀ m ∈ ([1, 2, 1, 1, 1] : List ℚ), 0 ≤ m) ∧
    ((400 : ℚ) ≤ 450 ∧ (450 : ℚ) ≤ 500) ∧
      ([(450 : ℚ)].length ≤ 5) ∧
      (∀ x ∈ [(450 : ℚ)], 400 ≤ x ∧ x ≤ 500) ∧
      ((1 : ℚ) / 450) = (8 : ℚ) / 3600 :=
  ⟨by decide,
    c10_report_invariants 8 3600 [1, 2, 1, 1, 1]
      { dominant_freq := 450, sample_rate := 3600, duration := 1 / 450, harmonics := [450] }
      (by decide) (by decide)⟩

/-! ## What the sort behind the harmonics guarantees -/

instance keyDescNat.instIsTotal (vals : List ℚ) : IsTotal ℕ (keyDescNat vals) :=
  ⟨fun i j => le_total (vals.getD j 0) (vals.getD i 0)⟩

instance keyDescNat.instIsTrans (vals : List ℚ) : IsTrans ℕ (keyDescNat vals) :=
  ⟨fun _ _ _ hij hjk => le_trans hjk hij⟩

/-- Everything numpy documents about the result of np.argsort(-vals),
whatever the sort kind: it is a permutation of the indices of vals, ordered
by descending value.  What the default kind, quicksort, leaves unspecified
— and what only a stable kind would add — is the relative order of indices
holding equal values. -/
def argsortContract (vals : List ℚ) (idxs : List ℕ) : Prop :=
  List.Perm idxs (List.range vals.length) ∧ idxs.Pairwise (keyDescNat vals)

instance argsortContract.instDecidable (vals : List ℚ) (idxs : List ℕ) :
    Decidable (argsortContract vals idxs) :=
  inferInstanceAs
    (Decidable (List.Perm idxs (List.range vals.length) ∧ idxs.Pairwise (keyDescNat vals)))

/-- The deterministic refinement argsortNeg used by the embedding satisfies
the documented contract of np.argsort(-vals). -/
theorem argsortNeg_satisfies_contract (vals : List ℚ) :
    argsortContract vals (argsortNeg vals) :=
  ⟨List.perm_insertionSort _ _, List.sorted_insertionSort _ _⟩

/-- C6 names a code bug: the original-bin-order tie-breaking asserted for
the harmonics is not guaranteed by line 38 of the script.  On a capture band
with two bins of equal magnitude — here the 440 Hz and 495 Hz bins of an
80-sample buffer at 4400 Hz, both of magnitude 3 — the index orders [0, 1]
and [1, 0] both satisfy the full documented contract of np.argsort(-vals) (a
permutation of the band-bin indices in descending magnitude order), yet they
induce different harmonics lists; the default sort kind, quicksort, is
documented as not stable, so the code does not determine which of the two
orders the report carries, while the specification demands the stable first
one. -/
theorem c6_tie_order_not_determined :
    argsortContract
        ((bandBins (rfftfreq 80 4400) [0, 0, 0, 0, 0, 0, 0, 0, 3, 3]).map Prod.snd)
        [0, 1] ∧
    argsortContract
        ((bandBins (rfftfreq 80 4400) [0, 0, 0, 0, 0, 0, 0, 0, 3, 3]).map Prod.snd)
        [1, 0] ∧
    ([0, 1].take 5).map
        (fun i =>
          ((bandBins (rfftfreq 80 4400) [0, 0, 0, 0, 0, 0, 0, 0, 3, 3]).map
            Prod.fst).getD i 0) ≠
      ([1, 0].take 5).map
        (fun i =>
          ((bandBins (rfftfreq 80 4400) [0, 0, 0, 0, 0, 0, 0, 0, 3, 3]).map
            Prod.fst).getD i 0) := by
  refine ⟨?_, ?_, ?_⟩ <;> decide

/-! ## Path derivation facts -/

theorem isPrefixOf_append_self (u t : PathStr) : u.isPrefixOf (u ++ t) = true := by
  induction u with
  | nil => cases t <;> rfl
  | cons c u ih => simp [List.isPrefixOf, ih]

theorem pyReplaceAux_nil (old new : PathStr) (fuel : ℕ) :
    pyReplaceAux old new fuel [] = [] := by
  cases fuel <;> rfl

theorem pyReplaceAux_unique_suffix (old new : PathStr) (hold : old ≠ []) :
    ∀ (pre : PathStr) (fuel : ℕ), (pre ++ old).length ≤ fuel →
      (∀ k, k < pre.length → old.isPrefixOf ((pre ++ old).drop k) = false) →
      pyReplaceAux old new fuel (pre ++ old) = pre ++ new := by
  intro pre
  induction pre with
  | nil =>
    intro fuel hf hk
    obtain ⟨o, os, rfl⟩ := List.exists_cons_of_ne_nil hold
    cases fuel with
    | zero => simp at hf
    | succ f =>
      simp only [List.nil_append] at hf ⊢
      have hpre : (o :: os).isPrefixOf (o :: os) = true := by
        have h := isPrefixOf_append_self (o :: os) []
        rwa [List.append_nil] at h
      simp only [pyReplaceAux, hpre, if_true]
      rw [List.drop_length, pyReplaceAux_nil, List.append_nil]
  | cons c pre ih =>
    intro fuel hf hk
    cases fuel with
    | zero => simp at hf
    | succ f =>
      have h0 : old.isPrefixOf (c :: (pre ++ old)) = false := by
        have := hk 0 (by simp)
        simpa using this
      have hside : ∀ k, k < pre.length → old.isPrefixOf ((pre ++ old).drop k) = false := by
        intro k hk2
        have := hk (k + 1) (by simpa using Nat.succ_lt_succ hk2)
        simpa [List.drop_succ_cons] using this
      simp only [List.cons_append] at hf ⊢
      simp only [pyReplaceAux, h0, Bool.false_eq_true, if_false]
      exact congrArg (List.cons c)
        (ih f (by simpa using Nat.le_of_succ_le_succ hf) hside)

theorem pyReplace_unique_suffix (old new pre : PathStr) (hold : old ≠ [])
    (hk : ∀ k, k < pre.length → old.isPrefixOf ((pre ++ old).drop k) = false) :
    pyReplace old new (pre ++ old) = pre ++ new :=
  pyReplaceAux_unique_suffix old new hold pre (pre ++ old).length (le_refl _) hk

theorem takeWhile_append_head_false {α : Type} (p : α → Bool) :
    ∀ (u v : List α), (∀ c, v.head? = some c → p c = false) →
      (u ++ v).takeWhile p = u.takeWhile p := by
  intro u
  induction u with
  | nil =>
    intro v hv
    cases v with
    | nil => rfl
    | cons c t => simp [List.takeWhile_cons, hv c rfl]
  | cons a u ih =>
    intro v hv
    by_cases hpa : p a = true
    · simp [List.takeWhile_cons, hpa, ih v hv]
    · simp [List.takeWhile_cons, hpa]

theorem revBasename_append (u v : PathStr) (hu : u.getLast? = some '/') :
    revBasename (u ++ v) = revBasename v := by
  unfold revBasename
  rw [List.reverse_append]
  refine takeWhile_append_head_false _ v.reverse u.reverse ?_
  intro c hc
  rw [List.head?_reverse, hu, Option.some_inj] at hc
  subst hc
  decide

theorem revBasename_length_le (v : PathStr) : (revBasename v).length ≤ v.length := by
  have := (List.takeWhile_sublist (l := v.reverse) (fun c => decide (c ≠ '/'))).length_le
  simpa [revBasename] using this

theorem lt_length_of_drop_any {l : List Char} {i : ℕ} {q : Char → Bool}
    (h : (l.drop (i + 1)).any q = true) : i + 1 < l.length := by
  rcases List.any_eq_true.mp h with ⟨x, hx, _⟩
  have h1 : l.drop (i + 1) ≠ [] := List.ne_nil_of_mem hx
  have h2 := List.length_pos.mpr h1
  rw [List.length_drop] at h2
  omega

theorem head?_take_pos {α : Type} (p : List α) (k : ℕ) (hk : 0 < k) :
    (p.take k).head? = p.head? := by
  cases p with
  | nil => simp
  | cons c t =>
    cases k with
    | zero => exact absurd hk (lt_irrefl 0)
    | succ k => simp [List.take_succ_cons]

theorem splitextRoot_head? (v : PathStr) : (splitextRoot v).head? = v.head? := by
  simp only [splitextRoot]
  cases hfind : (revBasename v).findIdx? (fun c => decide (c = '.')) with
  | none => rfl
  | some i =>
    simp only
    by_cases hany : ((revBasename v).drop (i + 1)).any (fun c => decide (c ≠ '.')) = true
    · simp only [hany, if_true]
      have hlt : i + 1 < (revBasename v).length := lt_length_of_drop_any hany
      have hle : (revBasename v).length ≤ v.length := revBasename_length_le v
      rw [List.drop_reverse, List.reverse_reverse]
      exact head?_take_pos v _ (by omega)
    · rw [if_neg hany]

theorem splitextRoot_append (u v : PathStr) (hu : u.getLast? = some '/') :
    splitextRoot (u ++ v) = u ++ splitextRoot v := by
  simp only [splitextRoot]
  rw [revBasename_append u v hu]
  cases hfind : (revBasename v).findIdx? (fun c => decide (c = '.')) with
  | none => rfl
  | some i =>
    simp only
    by_cases hany : ((revBasename v).drop (i + 1)).any (fun c => decide (c ≠ '.')) = true
    · simp only [hany, if_true]
      have hlt : i + 1 < (revBasename v).length := lt_length_of_drop_any hany
      have hle : (revBasename v).length ≤ v.length := revBasename_length_le v
      rw [List.reverse_append,
        List.drop_append_of_le_length (by rw [List.length_reverse]; omega),
        List.reverse_append, List.reverse_reverse]
    · rw [if_neg hany, if_neg hany]

/-- C9 as amended: the batch output path is the relative path with its
extension stripped, the fixed suffix _432Hz.wav appended, mirrored under the
output root; and the scratch path of iteration i is the output path with
every occurrence of the substring ".wav" replaced by _temp_<i>.wav — which
equals <output-path-without-".wav">_temp_<i>.wav exactly when the output
path ends in ".wav" and contains that substring only once (the hypothesis on
pre below); for other output paths the replace-all semantics of line 81
gives a different scratch path (see the counterexample). -/
theorem c9_path_derivation (output_folder rel pre : PathStr) (i : ℕ)
    (h1 : rel ≠ []) (h2 : rel.head? ≠ some '/')
    (hk : ∀ k, k < pre.length →
      (".wav".data).isPrefixOf ((pre ++ ".wav".data).drop k) = false) :
    batchOutputPath output_folder rel =
      pathJoin output_folder (splitextRoot rel ++ "_432Hz.wav".data) ∧
    tempOutputPath (pre ++ ".wav".data) i =
      pre ++ ("_temp_".data ++ Nat.toDigits 10 i ++ ".wav".data) := by
  constructor
  · obtain ⟨c, hc⟩ : ∃ c, rel.head? = some c := by
      cases rel with
      | nil => exact absurd rfl h1
      | cons a t => exact ⟨a, rfl⟩
    have hcne : c ≠ '/' := by
      intro h
      exact h2 (h ▸ hc)
    have hroot_head : (splitextRoot rel).head? = some c := by
      rw [splitextRoot_head?]; exact hc
    have hXhead : (splitextRoot rel ++ "_432Hz.wav".data).head? = some c := by
      rw [List.head?_append, hroot_head]; rfl
    have hXslash : ¬ (splitextRoot rel ++ "_432Hz.wav".data).head? = some '/' := by
      rw [hXhead]
      simp [hcne]
    by_cases hf0 : output_folder = []
    · subst hf0
      simp [batchOutputPath, pathJoin, h2, hXslash]
    · by_cases hfl : output_folder.getLast? = some '/'
      · have hL : pathJoin output_folder rel = output_folder ++ rel := by
          simp [pathJoin, h2, hf0, hfl]
        have hR : pathJoin output_folder (splitextRoot rel ++ "_432Hz.wav".data) =
            output_folder ++ (splitextRoot rel ++ "_432Hz.wav".data) := by
          simp [pathJoin, hXslash, hf0, hfl, hroot_head, hcne]
        rw [batchOutputPath, hL, hR, splitextRoot_append output_folder rel hfl,
          List.append_assoc]
      · have hL : pathJoin output_folder rel = (output_folder ++ ['/']) ++ rel := by
          simp [pathJoin, h2, hf0, hfl]
        have hR : pathJoin output_folder (splitextRoot rel ++ "_432Hz.wav".data) =
            (output_folder ++ ['/']) ++ (splitextRoot rel ++ "_432Hz.wav".data) := by
          simp [pathJoin, hXslash, hf0, hfl, hroot_head, hcne]
        rw [batchOutputPath, hL, hR,
          splitextRoot_append (output_folder ++ ['/']) rel (List.getLast?_concat _),
          List.append_assoc]
  · exact pyReplace_unique_suffix ".wav".data _ pre (by decide) hk

theorem c9_path_derivation_witness :
    batchOutputPath "out".data "sub/song.mp3".data =
      pathJoin "out".data (splitextRoot "sub/song.mp3".data ++ "_432Hz.wav".data) ∧
    tempOutputPath ("out".data ++ ".wav".data) 1 =
      "out".data ++ ("_temp_".data ++ Nat.toDigits 10 1 ++ ".wav".data) :=
  c9_path_derivation "out".data "sub/song.mp3".data "out".data 1 (by decide) (by decide)
    (by decide)

/-- C9 fails as stated: line 81 replaces every occurrence of ".wav" in the
output path, not just a trailing extension.  A batch input named
song.wav.mp3 produces the output path out/song.wav_432Hz.wav, whose
iteration-0 scratch path is out/song_temp_0.wav_432Hz_temp_0.wav, not the
claimed <output-path-without-extension>_temp_0.wav form. -/
theorem c9_counterexample_replace_all :
    batchOutputPath "out".data "song.wav.mp3".data = "out/song.wav_432Hz.wav".data ∧
    tempOutputPath "out/song.wav_432Hz.wav".data 0 =
      "out/song_temp_0.wav_432Hz_temp_0.wav".data ∧
    tempOutputPath "out/song.wav_432Hz.wav".data 0 ≠
      splitextRoot "out/song.wav_432Hz.wav".data ++ "_temp_0.wav".data := by
  refine ⟨?_, ?_, ?_⟩ <;> decide

end Spec432
